import Mathlib

/-!
Shallow embedding of the Afroboost campaign scheduler
(`src/backend/scheduler.py`) and proofs about its campaign
dispatcher state machine.

Time is modelled abstractly: `parse : String → Option Int` stands for
`parse_scheduled_date` (returning `none` on unparseable dates) and
`now : Int` for `get_current_utc_time()`; only the order on parsed
instants matters to the dispatcher.  The delivery call
`send_campaign_email` applied to one contact is abstracted by
`deliver : Contact → Bool × Option String` (the campaign's subject,
message and media reference are captured inside it, since they do not
affect the dispatcher state otherwise).  The Mongo store is a
`List Campaign`; `update_one` keyed on `id` is `applyUpdate`
(replace the first document whose `id` matches).
-/

namespace Afroboost

/-- MAX_RETRY_ATTEMPTS from scheduler.py line 56. -/
def MAX_RETRY_ATTEMPTS : Nat := 3

/-- A contact document from the `users` collection (id, email, name). -/
structure Contact where
  id : String
  email : String
  name : String
deriving Repr, DecidableEq

/-- One per-(contact, channel) delivery result record, as built at
scheduler.py lines 286-293. -/
structure ResultEntry where
  contactId : String
  contactName : String
  contactEmail : String
  channel : String
  status : String
  sentAt : String
deriving Repr, DecidableEq

/-- A campaign document.  `channelsEmail` is `channels.get("email", False)`;
`scheduledAt = none` models an absent field and `retryCounts` is the
string-keyed dict of attempt counts. -/
structure Campaign where
  id : String
  name : String
  message : String
  mediaUrl : String
  scheduledAt : Option String
  scheduledDates : List String
  sentDates : List String
  targetType : String
  selectedContacts : List String
  channelsEmail : Bool
  results : List ResultEntry
  retryCounts : List (String × Nat)
  status : String
  updatedAt : String
  lastProcessedAt : String
deriving Repr, DecidableEq

/-- Dict lookup `retry_counts.get(key, 0)` (scheduler.py line 259). -/
def rcGet (m : List (String × Nat)) (k : String) : Nat :=
  match m.find? (fun p => p.1 == k) with
  | some p => p.2
  | none => 0

/-- Dict assignment `retry_counts[key] = v` (scheduler.py line 307):
overwrite the entry when the key is present, append it otherwise. -/
def rcSet (m : List (String × Nat)) (k : String) (v : Nat) : List (String × Nat) :=
  if m.any (fun p => p.1 == k) then m.map (fun p => if p.1 == k then (k, v) else p)
  else m ++ [(k, v)]

/-- Date normalization (scheduler.py lines 164-166): when `scheduledAt` is a
non-empty string and `scheduledDates` is empty, the scheduled set is the
one-element list `[scheduledAt]`. -/
def normScheduled (c : Campaign) : List String :=
  match c.scheduledAt with
  | some sa => if sa ≠ "" ∧ c.scheduledDates = [] then [sa] else c.scheduledDates
  | none => c.scheduledDates

/-- A date string is due when it parses, the instant has passed, and it is
not yet among the sent dates (scheduler.py line 176). -/
def isDue (parse : String → Option Int) (now : Int) (sentDates : List String)
    (d : String) : Bool :=
  (match parse d with
   | some t => decide (t ≤ now)
   | none => false) && !(sentDates.contains d)

/-- The `dates_to_process` computation (scheduler.py lines 173-177). -/
def dueOf (parse : String → Option Int) (now : Int) (c : Campaign) : List String :=
  (normScheduled c).filter (isDue parse now c.sentDates)

/-- Contact resolution (scheduler.py lines 186-192): the full directory for
`targetType = "all"`, otherwise the directory filtered to `selectedContacts`. -/
def contactsOf (users : List Contact) (c : Campaign) : List Contact :=
  if c.targetType = "all" then users
  else users.filter (fun u => c.selectedContacts.contains u.id)

/-- Mongo `$addToSet ... $each` (scheduler.py line 219): append each date
not already present, keeping order. -/
def addToSetEach (base : List String) (xs : List String) : List String :=
  xs.foldl (fun acc d => if acc.contains d then acc else acc ++ [d]) base

/-- The check `any(r.contactId == id and r.channel == "email" and r.status == "sent")`
(scheduler.py lines 245-250). -/
def alreadySent (results : List ResultEntry) (cid : String) : Bool :=
  results.any (fun r => r.contactId == cid && r.channel == "email" && r.status == "sent")

/-- Replace the first result record matching (contactId, email channel),
appending when none matches (scheduler.py lines 296-303). -/
def upsertResult : List ResultEntry → ResultEntry → List ResultEntry
  | [], e => [e]
  | r :: rs, e =>
    if r.contactId == e.contactId && r.channel == "email" then e :: rs
    else r :: upsertResult rs e

/-- Mutable state of the per-contact send loop (scheduler.py lines 229-232),
plus a ghost trace `attempts` recording the ids of contacts for which the
delivery step (real send or dry-run simulation) was reached. -/
structure LoopState where
  successCount : Nat
  failCount : Nat
  results : List ResultEntry
  retryCounts : List (String × Nat)
  attempts : List String
deriving Repr, DecidableEq

/-- One iteration of the send loop (scheduler.py lines 235-307): skip
contacts without email; count a success and stop if a sent record exists;
count a failure without attempting once the retry ceiling is reached;
otherwise attempt delivery, upserting a sent record on success and
incrementing the retry counter on failure. -/
def processContact (deliver : Contact → Bool × Option String) (dryRun : Bool)
    (nowIso : String) (st : LoopState) (c : Contact) : LoopState :=
  if c.email = "" then st
  else if alreadySent st.results c.id then
    { st with successCount := st.successCount + 1 }
  else if MAX_RETRY_ATTEMPTS ≤ rcGet st.retryCounts (c.id ++ "_email") then
    { st with failCount := st.failCount + 1 }
  else if (if dryRun then true else (deliver c).1) then
    { st with
        successCount := st.successCount + 1,
        results := upsertResult st.results ⟨c.id, c.name, c.email, "email", "sent", nowIso⟩,
        attempts := st.attempts ++ [c.id] }
  else
    { st with
        failCount := st.failCount + 1,
        retryCounts := rcSet st.retryCounts (c.id ++ "_email")
          (rcGet st.retryCounts (c.id ++ "_email") + 1),
        attempts := st.attempts ++ [c.id] }

/-- The whole send loop over the resolved contacts. -/
def loopOut (deliver : Contact → Bool × Option String) (dryRun : Bool)
    (nowIso : String) (contacts : List Contact) (c : Campaign) : LoopState :=
  contacts.foldl (processContact deliver dryRun nowIso)
    ⟨0, 0, c.results, c.retryCounts, []⟩

/-- Outcome of `process_campaign`: the returned triple
(processed, success_count, fail_count), the ghost delivery-attempt trace,
and the campaign document as stored after the update (the document itself
when no write occurs). -/
structure ProcessResult where
  processed : Bool
  successCount : Nat
  failCount : Nat
  attempts : List String
  newCampaign : Campaign
deriving Repr, DecidableEq

/-- The `process_campaign` function (scheduler.py lines 142-342).  The branches, in
order: no scheduled dates → skip; nothing due → skip; no contacts →
mark completed; email channel disabled → fold due dates into sentDates
and complete when all dates are covered; otherwise run the send loop and
reduce to failed / completed / scheduled.  `list(set(a + b))` is modelled
by `(a ++ b).dedup`, equal to it as a set. -/
def process_campaign (parse : String → Option Int) (now : Int) (nowIso : String)
    (users : List Contact) (deliver : Contact → Bool × Option String)
    (dryRun : Bool) (c : Campaign) : ProcessResult :=
  if normScheduled c = [] then ⟨false, 0, 0, [], c⟩
  else if dueOf parse now c = [] then ⟨false, 0, 0, [], c⟩
  else if contactsOf users c = [] then
    ⟨true, 0, 0, [], { c with status := "completed", updatedAt := nowIso }⟩
  else if c.channelsEmail = false then
    ⟨true, 0, 0, [],
      { c with
          status :=
            if (normScheduled c).all
                (fun d => (c.sentDates ++ dueOf parse now c).contains d)
            then "completed" else "scheduled",
          updatedAt := nowIso,
          sentDates := addToSetEach c.sentDates (dueOf parse now c) }⟩
  else
    ⟨true,
     (loopOut deliver dryRun nowIso (contactsOf users c) c).successCount,
     (loopOut deliver dryRun nowIso (contactsOf users c) c).failCount,
     (loopOut deliver dryRun nowIso (contactsOf users c) c).attempts,
     { c with
         status :=
           if 0 < (loopOut deliver dryRun nowIso (contactsOf users c) c).failCount ∧
               (loopOut deliver dryRun nowIso (contactsOf users c) c).successCount = 0
           then "failed"
           else if (normScheduled c).all
               (fun d => ((c.sentDates ++ dueOf parse now c).dedup).contains d)
           then "completed" else "scheduled",
         results := (loopOut deliver dryRun nowIso (contactsOf users c) c).results,
         sentDates := (c.sentDates ++ dueOf parse now c).dedup,
         retryCounts := (loopOut deliver dryRun nowIso (contactsOf users c) c).retryCounts,
         updatedAt := nowIso,
         lastProcessedAt := nowIso }⟩

/-- The sweep's selection predicate (scheduler.py lines 361-364): only
campaigns in status `scheduled` or `sending` are fetched. -/
def sweepStatusSelect (c : Campaign) : Bool :=
  c.status == "scheduled" || c.status == "sending"

/-- The store write `update_one` keyed on id: replace the first stored document whose
id matches the updated campaign's id. -/
def applyUpdate : List Campaign → Campaign → List Campaign
  | [], _ => []
  | x :: xs, n => if x.id == n.id then n :: xs else x :: applyUpdate xs n

/-- One iteration of the sweep loop (scheduler.py lines 376-386): process
the campaign, and when it reports processed, commit its write to the store
and add its counts to the sweep totals. -/
def sweepStep (parse : String → Option Int) (now : Int) (nowIso : String)
    (users : List Contact) (deliver : Contact → Bool × Option String) (dryRun : Bool)
    (acc : List Campaign × Nat × Nat × Nat) (c : Campaign) :
    List Campaign × Nat × Nat × Nat :=
  if (process_campaign parse now nowIso users deliver dryRun c).processed then
    (applyUpdate acc.1 (process_campaign parse now nowIso users deliver dryRun c).newCampaign,
     acc.2.1 + 1,
     acc.2.2.1 + (process_campaign parse now nowIso users deliver dryRun c).successCount,
     acc.2.2.2 + (process_campaign parse now nowIso users deliver dryRun c).failCount)
  else acc

/-- The `run_scheduler` sweep (scheduler.py lines 345-391): select the campaigns in
status scheduled/sending from the store snapshot and fold the sweep loop
over them.  Returns the post-sweep store and the triple
(campaigns_processed, total_success, total_fail). -/
def run_scheduler (parse : String → Option Int) (now : Int) (nowIso : String)
    (users : List Contact) (deliver : Contact → Bool × Option String) (dryRun : Bool)
    (store : List Campaign) : List Campaign × Nat × Nat × Nat :=
  (store.filter (fun c => sweepStatusSelect c)).foldl
    (sweepStep parse now nowIso users deliver dryRun) (store, 0, 0, 0)

/-- The observable outcome of the HTTP POST inside `send_campaign_email`
(scheduler.py lines 121-139): a timeout, some other raised exception with
its text, or a response carrying a status code, its body text, and the
result of `response.json()`. -/
inductive HttpOutcome where
  | timeout
  | exc (msg : String)
  | response (statusCode : Nat) (text : String) (body : Option (Bool × Option String))
deriving Repr, DecidableEq

/-- The `send_campaign_email` client (scheduler.py lines 106-139), as a function of
the HTTP outcome.  A `response` body of `none` models `response.json()`
raising on a non-JSON body (caught by the generic handler via `exc` only
when the status is 200 and the body is read; we fold that case into the
generic exception arm by taking the raised text from `excText`). -/
def send_campaign_email (excText : String) : HttpOutcome → Bool × Option String
  | .timeout => (false, some "Timeout lors de l'envoi")
  | .exc m => (false, some m)
  | .response code text body =>
    if code = 200 then
      match body with
      | none => (false, some excText)
      | some (s, e) =>
        if s then (true, none)
        else (false, some (e.getD "Erreur inconnue"))
    else (false, some ("HTTP " ++ toString code ++ ": " ++ text.take 200))

section Fixtures

/-- Concrete stand-in for `parse_scheduled_date`: the date string "bad" is
unparseable, "future" parses to instant 100, everything else to instant 0. -/
def wParse : String → Option Int := fun s =>
  if s = "bad" then none else if s = "future" then some 100 else some 0

/-- A directory with a single contact. -/
def u1 : Contact := ⟨"u1", "u1@example.test", "User One"⟩

/-- A delivery oracle that always succeeds. -/
def deliverOk : Contact → Bool × Option String := fun _ => (true, none)

/-- A delivery oracle that always fails. -/
def deliverKo : Contact → Bool × Option String := fun _ => (false, some "boom")

/-- A plain scheduled campaign with one past date and one future date. -/
def baseCampaign : Campaign :=
  { id := "c1", name := "Promo", message := "Hello", mediaUrl := "",
    scheduledAt := none, scheduledDates := ["d1", "future"], sentDates := [],
    targetType := "all", selectedContacts := [], channelsEmail := true,
    results := [], retryCounts := [], status := "scheduled",
    updatedAt := "t0", lastProcessedAt := "t0" }

/-- A due campaign targeting a selected id set matching no contact. -/
def cSelNone : Campaign :=
  { baseCampaign with targetType := "selected", selectedContacts := ["nobody"] }

/-- A due campaign whose email channel is disabled. -/
def cNoEmail : Campaign := { baseCampaign with channelsEmail := false }

/-- A campaign scheduled only through the single `scheduledAt` instant,
with an empty `scheduledDates` list. -/
def cAtOnly : Campaign :=
  { baseCampaign with scheduledAt := some "d1", scheduledDates := [] }

/-- A campaign with only a future date, so nothing is due at instant 0. -/
def cFuture : Campaign := { baseCampaign with scheduledDates := ["future"] }

/-- A failed campaign that still has an unresolved scheduled date. -/
def cFailed : Campaign :=
  { baseCampaign with id := "c9", status := "failed", sentDates := ["d1"] }

end Fixtures

/-- Bool list membership test agrees with propositional membership. -/
lemma contains_iff_mem {l : List String} {a : String} : l.contains a = true ↔ a ∈ l :=
  List.elem_iff

/-- Unfolding one step of the `$addToSet $each` fold. -/
lemma addToSetEach_cons (base : List String) (d : String) (ds : List String) :
    addToSetEach base (d :: ds) =
      addToSetEach (if base.contains d then base else base ++ [d]) ds := rfl

/-- The `$addToSet $each` write computes the set union of its arguments. -/
lemma mem_addToSetEach (x : String) :
    ∀ (xs base : List String), x ∈ addToSetEach base xs ↔ x ∈ base ∨ x ∈ xs := by
  intro xs
  induction xs with
  | nil =>
    intro base
    simp [addToSetEach]
  | cons d ds ih =>
    intro base
    rw [addToSetEach_cons, ih]
    by_cases hd : base.contains d = true
    · have hdm : d ∈ base := contains_iff_mem.mp hd
      rw [if_pos hd]
      simp only [List.mem_cons]
      constructor
      · rintro (h | h)
        · exact Or.inl h
        · exact Or.inr (Or.inr h)
      · rintro (h | h | h)
        · exact Or.inl h
        · exact Or.inl (by rw [h]; exact hdm)
        · exact Or.inr h
    · rw [if_neg hd]
      simp only [List.mem_append, List.mem_cons, List.mem_singleton]
      tauto

/-- Membership in the due list unfolds to membership in the scheduled set
plus the due test. -/
lemma mem_dueOf {parse : String → Option Int} {now : Int} {c : Campaign} {d : String} :
    d ∈ dueOf parse now c ↔
      d ∈ normScheduled c ∧ isDue parse now c.sentDates d = true :=
  List.mem_filter

/-- The scheduled-set normalization reads only `scheduledAt` and
`scheduledDates`. -/
lemma normScheduled_congr {c c' : Campaign} (h1 : c'.scheduledAt = c.scheduledAt)
    (h2 : c'.scheduledDates = c.scheduledDates) :
    normScheduled c' = normScheduled c := by
  unfold normScheduled
  rw [h1, h2]

/-- An empty scheduled set has no due dates. -/
lemma dueOf_nil_of_norm_nil {parse : String → Option Int} {now : Int} {c : Campaign}
    (h : normScheduled c = []) : dueOf parse now c = [] := by
  simp [dueOf, h]

/-- Bridging the code's Bool superset test on a concatenation to the
spec's set inclusion. -/
lemma all_contains_append (l a b : List String) :
    (l.all fun d => (a ++ b).contains d) = true ↔ ∀ d ∈ l, d ∈ a ∨ d ∈ b := by
  rw [List.all_eq_true]
  constructor
  · intro h d hd
    exact List.mem_append.mp (contains_iff_mem.mp (h d hd))
  · intro h d hd
    exact contains_iff_mem.mpr (List.mem_append.mpr (h d hd))

/-- The same superset test, run on the deduplicated concatenation. -/
lemma all_contains_dedup_append (l a b : List String) :
    (l.all fun d => ((a ++ b).dedup).contains d) = true ↔ ∀ d ∈ l, d ∈ a ∨ d ∈ b := by
  rw [List.all_eq_true]
  constructor
  · intro h d hd
    have h2 := contains_iff_mem.mp (h d hd)
    rw [List.mem_dedup, List.mem_append] at h2
    exact h2
  · intro h d hd
    apply contains_iff_mem.mpr
    rw [List.mem_dedup, List.mem_append]
    exact h d hd

/-- Writing a value below a bound into a bounded retry-count dict keeps
every stored count below the bound. -/
lemma rcSet_bound {m : List (String × Nat)} {k : String} {v n : Nat}
    (hm : ∀ p ∈ m, p.2 ≤ n) (hv : v ≤ n) : ∀ p ∈ rcSet m k v, p.2 ≤ n := by
  intro p hp
  unfold rcSet at hp
  by_cases h : m.any (fun q => q.1 == k) = true
  · rw [if_pos h] at hp
    obtain ⟨q, hq, hfq⟩ := List.mem_map.mp hp
    by_cases hk : (q.1 == k) = true
    · rw [if_pos hk] at hfq
      rw [← hfq]
      exact hv
    · rw [if_neg hk] at hfq
      rw [← hfq]
      exact hm q hq
  · rw [if_neg h] at hp
    rcases List.mem_append.mp hp with h1 | h1
    · exact hm p h1
    · rw [List.mem_singleton] at h1
      rw [h1]
      exact hv

/-- A campaign with nothing due is skipped: not processed, zero counts, no
delivery attempts and the stored document untouched. -/
lemma process_skip {parse : String → Option Int} {now : Int} {nowIso : String}
    {users : List Contact} {deliver : Contact → Bool × Option String} {dryRun : Bool}
    {c : Campaign} (h : dueOf parse now c = []) :
    process_campaign parse now nowIso users deliver dryRun c = ⟨false, 0, 0, [], c⟩ := by
  unfold process_campaign
  by_cases h0 : normScheduled c = []
  · rw [if_pos h0]
  · rw [if_neg h0, if_pos h]

/-- Conversely, a campaign reported unprocessed had nothing due. -/
lemma processed_false_due_nil {parse : String → Option Int} {now : Int} {nowIso : String}
    {users : List Contact} {deliver : Contact → Bool × Option String} {dryRun : Bool}
    {c : Campaign}
    (h : (process_campaign parse now nowIso users deliver dryRun c).processed = false) :
    dueOf parse now c = [] := by
  by_contra hdue
  unfold process_campaign at h
  rw [if_neg (fun h0 => hdue (dueOf_nil_of_norm_nil h0)), if_neg hdue] at h
  by_cases hc : contactsOf users c = []
  · rw [if_pos hc] at h
    simp at h
  · rw [if_neg hc] at h
    by_cases hch : c.channelsEmail = false
    · rw [if_pos hch] at h
      simp at h
    · rw [if_neg hch] at h
      simp at h

/-- Processing never rewrites a campaign's identity or scheduling
configuration: only status, results, sentDates, retryCounts and the audit
timestamps are written. -/
lemma process_preserves_fields (parse : String → Option Int) (now : Int) (nowIso : String)
    (users : List Contact) (deliver : Contact → Bool × Option String) (dryRun : Bool)
    (c : Campaign) :
    (process_campaign parse now nowIso users deliver dryRun c).newCampaign.id = c.id ∧
    (process_campaign parse now nowIso users deliver dryRun c).newCampaign.scheduledAt
      = c.scheduledAt ∧
    (process_campaign parse now nowIso users deliver dryRun c).newCampaign.scheduledDates
      = c.scheduledDates := by
  unfold process_campaign
  split
  · exact ⟨rfl, rfl, rfl⟩
  split
  · exact ⟨rfl, rfl, rfl⟩
  split
  · exact ⟨rfl, rfl, rfl⟩
  split
  · exact ⟨rfl, rfl, rfl⟩
  · exact ⟨rfl, rfl, rfl⟩

/-- The due test holds exactly when the date parses to a past instant and
is not among the sent dates. -/
lemma isDue_true_iff {parse : String → Option Int} {now : Int} {sent : List String}
    {d : String} :
    isDue parse now sent d = true ↔
      (∃ t, parse d = some t ∧ t ≤ now) ∧ ¬ d ∈ sent := by
  unfold isDue
  rcases hp : parse d with _ | t
  · simp [hp]
  · by_cases hc : sent.contains d = true
    · simp [hp, hc, contains_iff_mem.mp hc]
    · have hm : ¬ d ∈ sent := fun hmem => hc (contains_iff_mem.mpr hmem)
      have hcf : sent.contains d = false := by
        cases h : sent.contains d
        · rfl
        · exact absurd h hc
      simp [hp, hcf, hm]

/-- The no-contacts branch of `process_campaign` (scheduler.py lines
194-201). -/
lemma process_branch_noContacts {parse : String → Option Int} {now : Int} {nowIso : String}
    {users : List Contact} {deliver : Contact → Bool × Option String} {dryRun : Bool}
    {c : Campaign} (hdue : ¬ dueOf parse now c = [])
    (hcont : contactsOf users c = []) :
    process_campaign parse now nowIso users deliver dryRun c =
      ⟨true, 0, 0, [], { c with status := "completed", updatedAt := nowIso }⟩ := by
  have h0 : ¬ normScheduled c = [] := fun h => hdue (dueOf_nil_of_norm_nil h)
  unfold process_campaign
  rw [if_neg h0, if_neg hdue, if_pos hcont]

/-- The channel-disabled branch of `process_campaign` (scheduler.py lines
205-222). -/
lemma process_branch_disabled {parse : String → Option Int} {now : Int} {nowIso : String}
    {users : List Contact} {deliver : Contact → Bool × Option String} {dryRun : Bool}
    {c : Campaign} (hdue : ¬ dueOf parse now c = [])
    (hcont : ¬ contactsOf users c = []) (hch : c.channelsEmail = false) :
    process_campaign parse now nowIso users deliver dryRun c =
      ⟨true, 0, 0, [],
        { c with
            status :=
              if (normScheduled c).all
                  (fun d => (c.sentDates ++ dueOf parse now c).contains d)
              then "completed" else "scheduled",
            updatedAt := nowIso,
            sentDates := addToSetEach c.sentDates (dueOf parse now c) }⟩ := by
  have h0 : ¬ normScheduled c = [] := fun h => hdue (dueOf_nil_of_norm_nil h)
  unfold process_campaign
  rw [if_neg h0, if_neg hdue, if_neg hcont, if_pos hch]

/-- The send-loop branch of `process_campaign` (scheduler.py lines
224-342). -/
lemma process_branch_main {parse : String → Option Int} {now : Int} {nowIso : String}
    {users : List Contact} {deliver : Contact → Bool × Option String} {dryRun : Bool}
    {c : Campaign} (hdue : ¬ dueOf parse now c = [])
    (hcont : ¬ contactsOf users c = []) (hch : c.channelsEmail = true) :
    process_campaign parse now nowIso users deliver dryRun c =
      ⟨true,
       (loopOut deliver dryRun nowIso (contactsOf users c) c).successCount,
       (loopOut deliver dryRun nowIso (contactsOf users c) c).failCount,
       (loopOut deliver dryRun nowIso (contactsOf users c) c).attempts,
       { c with
           status :=
             if 0 < (loopOut deliver dryRun nowIso (contactsOf users c) c).failCount ∧
                 (loopOut deliver dryRun nowIso (contactsOf users c) c).successCount = 0
             then "failed"
             else if (normScheduled c).all
                 (fun d => ((c.sentDates ++ dueOf parse now c).dedup).contains d)
             then "completed" else "scheduled",
           results := (loopOut deliver dryRun nowIso (contactsOf users c) c).results,
           sentDates := (c.sentDates ++ dueOf parse now c).dedup,
           retryCounts := (loopOut deliver dryRun nowIso (contactsOf users c) c).retryCounts,
           updatedAt := nowIso,
           lastProcessedAt := nowIso }⟩ := by
  have h0 : ¬ normScheduled c = [] := fun h => hdue (dueOf_nil_of_norm_nil h)
  have hch' : ¬ c.channelsEmail = false := by simp [hch]
  unfold process_campaign
  rw [if_neg h0, if_neg hdue, if_neg hcont, if_neg hch']

/-- C6: a due campaign with contacts but a disabled email channel makes no
delivery attempt, keeps results and retry counters, folds the due dates
set-wise into sentDates, and completes exactly when sentDates together
with the due dates cover the scheduled dates. -/
theorem C6_channel_disabled (parse : String → Option Int) (now : Int) (nowIso : String)
    (users : List Contact) (deliver : Contact → Bool × Option String) (dryRun : Bool)
    (c : Campaign) (hdue : ¬ dueOf parse now c = [])
    (hcont : ¬ contactsOf users c = []) (hch : c.channelsEmail = false) :
    (process_campaign parse now nowIso users deliver dryRun c).attempts = [] ∧
    (process_campaign parse now nowIso users deliver dryRun c).processed = true ∧
    (process_campaign parse now nowIso users deliver dryRun c).successCount = 0 ∧
    (process_campaign parse now nowIso users deliver dryRun c).failCount = 0 ∧
    (∀ d, d ∈ (process_campaign parse now nowIso users deliver dryRun c).newCampaign.sentDates
        ↔ d ∈ c.sentDates ∨ d ∈ dueOf parse now c) ∧
    (process_campaign parse now nowIso users deliver dryRun c).newCampaign.status =
      (if ∀ d ∈ normScheduled c, d ∈ c.sentDates ∨ d ∈ dueOf parse now c
       then "completed" else "scheduled") ∧
    (process_campaign parse now nowIso users deliver dryRun c).newCampaign.results
      = c.results ∧
    (process_campaign parse now nowIso users deliver dryRun c).newCampaign.retryCounts
      = c.retryCounts := by
  rw [process_branch_disabled hdue hcont hch]
  refine ⟨rfl, rfl, rfl, rfl, ?_, ?_, rfl, rfl⟩
  · intro d
    exact mem_addToSetEach d (dueOf parse now c) c.sentDates
  · show (if (normScheduled c).all
        (fun d => (c.sentDates ++ dueOf parse now c).contains d) = true
      then "completed" else "scheduled") = _
    exact if_congr (all_contains_append (normScheduled c) c.sentDates
      (dueOf parse now c)) rfl rfl

/-- Witness for C6: the disabled-channel campaign at instant 0, where only
the first of its two dates is due, stays scheduled and absorbs that date. -/
theorem C6_witness :
    (process_campaign wParse 0 "T1" [u1] deliverOk false cNoEmail).attempts = [] ∧
    (process_campaign wParse 0 "T1" [u1] deliverOk false cNoEmail).processed = true ∧
    (process_campaign wParse 0 "T1" [u1] deliverOk false cNoEmail).successCount = 0 ∧
    (process_campaign wParse 0 "T1" [u1] deliverOk false cNoEmail).failCount = 0 ∧
    (∀ d, d ∈ (process_campaign wParse 0 "T1" [u1] deliverOk false cNoEmail).newCampaign.sentDates
        ↔ d ∈ cNoEmail.sentDates ∨ d ∈ dueOf wParse 0 cNoEmail) ∧
    (process_campaign wParse 0 "T1" [u1] deliverOk false cNoEmail).newCampaign.status =
      (if ∀ d ∈ normScheduled cNoEmail, d ∈ cNoEmail.sentDates ∨ d ∈ dueOf wParse 0 cNoEmail
       then "completed" else "scheduled") ∧
    (process_campaign wParse 0 "T1" [u1] deliverOk false cNoEmail).newCampaign.results
      = cNoEmail.results ∧
    (process_campaign wParse 0 "T1" [u1] deliverOk false cNoEmail).newCampaign.retryCounts
      = cNoEmail.retryCounts :=
  C6_channel_disabled wParse 0 "T1" [u1] deliverOk false cNoEmail
    (by decide) (by decide) (by decide)

/-- C5: a contact whose result record for the email channel is already
`sent` is skipped by the send loop: no delivery attempt, the success count
is incremented, and results, retry counters and the attempt trace are left
unchanged. -/
theorem C5_already_sent_skipped (deliver : Contact → Bool × Option String)
    (dryRun : Bool) (nowIso : String) (st : LoopState) (c : Contact)
    (he : ¬ c.email = "") (hs : alreadySent st.results c.id = true) :
    processContact deliver dryRun nowIso st c =
      { st with successCount := st.successCount + 1 } := by
  unfold processContact
  rw [if_neg he, if_pos hs]

/-- Witness for C5 at a concrete loop state holding a sent record. -/
theorem C5_witness :
    processContact deliverKo false "T1"
        ⟨0, 0, [⟨"u1", "User One", "u1@example.test", "email", "sent", "t0"⟩], [], []⟩ u1 =
      ⟨1, 0, [⟨"u1", "User One", "u1@example.test", "email", "sent", "t0"⟩], [], []⟩ :=
  C5_already_sent_skipped deliverKo false "T1"
    ⟨0, 0, [⟨"u1", "User One", "u1@example.test", "email", "sent", "t0"⟩], [], []⟩ u1
    (by decide) (by decide)

/-- C7: a due campaign resolving to zero contacts is immediately marked
completed with zero successes, zero failures, no delivery attempts, no new
result records, and still counts as processed. -/
theorem C7_no_contacts_completed (parse : String → Option Int) (now : Int)
    (nowIso : String) (users : List Contact) (deliver : Contact → Bool × Option String)
    (dryRun : Bool) (c : Campaign)
    (hdue : ¬ dueOf parse now c = [])
    (hcont : contactsOf users c = []) :
    process_campaign parse now nowIso users deliver dryRun c =
      ⟨true, 0, 0, [], { c with status := "completed", updatedAt := nowIso }⟩ :=
  process_branch_noContacts hdue hcont

/-- Witness for C7: a selected-target campaign whose id set matches no
contact. -/
theorem C7_witness :
    process_campaign wParse 0 "T1" [u1] deliverOk false cSelNone =
      ⟨true, 0, 0, [], { cSelNone with status := "completed", updatedAt := "T1" }⟩ :=
  C7_no_contacts_completed wParse 0 "T1" [u1] deliverOk false cSelNone
    (by decide) (by decide)

/-- C3: once the retry counter for a contact's email key has reached the
ceiling of 3 the loop counts a failure without attempting delivery and
without touching the counter; moreover one loop step keeps every stored
retry counter at or below the ceiling. -/
theorem C3_retry_ceiling (deliver : Contact → Bool × Option String) (dryRun : Bool)
    (nowIso : String) (st : LoopState) (c : Contact)
    (hbound : ∀ p ∈ st.retryCounts, p.2 ≤ MAX_RETRY_ATTEMPTS) :
    (¬ c.email = "" → alreadySent st.results c.id = false →
      MAX_RETRY_ATTEMPTS ≤ rcGet st.retryCounts (c.id ++ "_email") →
      processContact deliver dryRun nowIso st c =
        { st with failCount := st.failCount + 1 }) ∧
    (∀ p ∈ (processContact deliver dryRun nowIso st c).retryCounts,
      p.2 ≤ MAX_RETRY_ATTEMPTS) := by
  constructor
  · intro he hs h3
    unfold processContact
    rw [if_neg he, if_neg (by simp [hs]), if_pos h3]
  · unfold processContact
    by_cases he : c.email = ""
    · rw [if_pos he]
      exact hbound
    rw [if_neg he]
    by_cases hs : alreadySent st.results c.id = true
    · rw [if_pos hs]
      exact hbound
    rw [if_neg hs]
    by_cases h3 : MAX_RETRY_ATTEMPTS ≤ rcGet st.retryCounts (c.id ++ "_email")
    · rw [if_pos h3]
      exact hbound
    rw [if_neg h3]
    by_cases hok : (if dryRun then true else (deliver c).1) = true
    · rw [if_pos hok]
      exact hbound
    · rw [if_neg hok]
      exact rcSet_bound hbound (by omega)

/-- Witness for C3 at a loop state whose counter for the contact already
equals the ceiling. -/
theorem C3_witness :
    processContact deliverOk false "T1" ⟨0, 0, [], [("u1_email", 3)], []⟩ u1 =
      ⟨0, 1, [], [("u1_email", 3)], []⟩ ∧
    (∀ p ∈ (processContact deliverOk false "T1"
        ⟨0, 0, [], [("u1_email", 3)], []⟩ u1).retryCounts, p.2 ≤ MAX_RETRY_ATTEMPTS) :=
  ⟨(C3_retry_ceiling deliverOk false "T1" ⟨0, 0, [], [("u1_email", 3)], []⟩ u1
      (by decide)).1 (by decide) (by decide) (by decide),
   (C3_retry_ceiling deliverOk false "T1" ⟨0, 0, [], [("u1_email", 3)], []⟩ u1
      (by decide)).2⟩

/-- C1: for a campaign that reaches the send loop (dates due, contacts
resolved, email channel enabled), the persisted status is `failed` when
there are failures and no successes, else `completed` when the sent dates
together with the due dates cover the scheduled dates, else `scheduled`. -/
theorem C1_status_reduction (parse : String → Option Int) (now : Int) (nowIso : String)
    (users : List Contact) (deliver : Contact → Bool × Option String) (dryRun : Bool)
    (c : Campaign) (hdue : ¬ dueOf parse now c = [])
    (hcont : ¬ contactsOf users c = []) (hch : c.channelsEmail = true) :
    (process_campaign parse now nowIso users deliver dryRun c).newCampaign.status =
      if 0 < (process_campaign parse now nowIso users deliver dryRun c).failCount ∧
          (process_campaign parse now nowIso users deliver dryRun c).successCount = 0
      then "failed"
      else if ∀ d ∈ normScheduled c, d ∈ c.sentDates ∨ d ∈ dueOf parse now c
      then "completed"
      else "scheduled" := by
  rw [process_branch_main hdue hcont hch]
  dsimp only
  exact if_congr Iff.rfl rfl
    (if_congr (all_contains_dedup_append (normScheduled c) c.sentDates
      (dueOf parse now c)) rfl rfl)

/-- Witness for C1: one date due out of two, delivery succeeds, so the
campaign remains scheduled. -/
theorem C1_witness :
    (process_campaign wParse 0 "T1" [u1] deliverOk false baseCampaign).newCampaign.status =
      if 0 < (process_campaign wParse 0 "T1" [u1] deliverOk false baseCampaign).failCount ∧
          (process_campaign wParse 0 "T1" [u1] deliverOk false baseCampaign).successCount = 0
      then "failed"
      else if ∀ d ∈ normScheduled baseCampaign,
          d ∈ baseCampaign.sentDates ∨ d ∈ dueOf wParse 0 baseCampaign
      then "completed"
      else "scheduled" :=
  C1_status_reduction wParse 0 "T1" [u1] deliverOk false baseCampaign
    (by decide) (by decide) (by decide)

/-- C10: whenever the dispatcher persists a campaign, the written status
is `completed`, `failed` or `scheduled`, and in particular never
`sending`. -/
theorem C10_persisted_status (parse : String → Option Int) (now : Int) (nowIso : String)
    (users : List Contact) (deliver : Contact → Bool × Option String) (dryRun : Bool)
    (c : Campaign)
    (h : (process_campaign parse now nowIso users deliver dryRun c).processed = true) :
    ((process_campaign parse now nowIso users deliver dryRun c).newCampaign.status
        = "completed" ∨
      (process_campaign parse now nowIso users deliver dryRun c).newCampaign.status
        = "failed" ∨
      (process_campaign parse now nowIso users deliver dryRun c).newCampaign.status
        = "scheduled") ∧
    ¬ (process_campaign parse now nowIso users deliver dryRun c).newCampaign.status
        = "sending" := by
  by_cases hdue : dueOf parse now c = []
  · rw [process_skip hdue] at h
    simp at h
  · by_cases hcont : contactsOf users c = []
    · rw [process_branch_noContacts hdue hcont]
      refine ⟨Or.inl rfl, ?_⟩
      show ¬ "completed" = "sending"
      decide
    · by_cases hch : c.channelsEmail = false
      · rw [process_branch_disabled hdue hcont hch]
        constructor
        · dsimp only
          split
          · exact Or.inl rfl
          · exact Or.inr (Or.inr rfl)
        · dsimp only
          split
          · decide
          · decide
      · have hch' : c.channelsEmail = true := by
          revert hch
          cases c.channelsEmail <;> simp
        rw [process_branch_main hdue hcont hch']
        constructor
        · dsimp only
          split
          · exact Or.inr (Or.inl rfl)
          · split
            · exact Or.inl rfl
            · exact Or.inr (Or.inr rfl)
        · dsimp only
          split
          · decide
          · split
            · decide
            · decide

/-- Witness for C10 at a processed campaign. -/
theorem C10_witness :
    ((process_campaign wParse 0 "T1" [u1] deliverOk false baseCampaign).newCampaign.status
        = "completed" ∨
      (process_campaign wParse 0 "T1" [u1] deliverOk false baseCampaign).newCampaign.status
        = "failed" ∨
      (process_campaign wParse 0 "T1" [u1] deliverOk false baseCampaign).newCampaign.status
        = "scheduled") ∧
    ¬ (process_campaign wParse 0 "T1" [u1] deliverOk false baseCampaign).newCampaign.status
        = "sending" :=
  C10_persisted_status wParse 0 "T1" [u1] deliverOk false baseCampaign (by decide)

/-- C9: the delivery client returns success exactly on a 200 response whose
JSON success flag is true; a 200 response with a false flag yields the
body's error text (with a fixed default); a non-200 status yields
"HTTP code: first 200 chars of body"; a timeout or other exception yields
a diagnostic string; and it is total: every failure carries some error
message. -/
theorem C9_delivery_contract (excText : String) (o : HttpOutcome) :
    ((send_campaign_email excText o = (true, none)) ↔
      ∃ text e, o = .response 200 text (some (true, e))) ∧
    (∀ code text body, o = .response code text body → ¬ code = 200 →
      send_campaign_email excText o =
        (false, some ("HTTP " ++ toString code ++ ": " ++ text.take 200))) ∧
    (∀ text e, o = .response 200 text (some (false, e)) →
      send_campaign_email excText o = (false, some (e.getD "Erreur inconnue"))) ∧
    (o = .timeout →
      send_campaign_email excText o = (false, some "Timeout lors de l'envoi")) ∧
    (∀ m, o = .exc m → send_campaign_email excText o = (false, some m)) ∧
    ((send_campaign_email excText o).1 = true ∨
      ∃ m, send_campaign_email excText o = (false, some m)) := by
  refine ⟨?_, ?_, ?_, ?_, ?_, ?_⟩
  · constructor
    · intro h
      rcases o with _ | m | ⟨code, text, body⟩
      · simp [send_campaign_email] at h
      · simp [send_campaign_email] at h
      · by_cases hc : code = 200
        · subst hc
          rcases body with _ | ⟨s, e⟩
          · simp [send_campaign_email] at h
          · rcases s with _ | _
            · simp [send_campaign_email] at h
            · exact ⟨text, e, rfl⟩
        · simp [send_campaign_email, hc] at h
    · rintro ⟨text, e, rfl⟩
      simp [send_campaign_email]
  · rintro code text body rfl hc
    simp [send_campaign_email, hc]
  · rintro text e rfl
    simp [send_campaign_email]
  · rintro rfl
    simp [send_campaign_email]
  · rintro m rfl
    simp [send_campaign_email]
  · rcases o with _ | m | ⟨code, text, body⟩
    · exact Or.inr ⟨"Timeout lors de l'envoi", rfl⟩
    · exact Or.inr ⟨m, rfl⟩
    · by_cases hc : code = 200
      · subst hc
        rcases body with _ | ⟨s, e⟩
        · exact Or.inr ⟨excText, rfl⟩
        · rcases s with _ | _
          · exact Or.inr ⟨e.getD "Erreur inconnue", by simp [send_campaign_email]⟩
          · exact Or.inl (by simp [send_campaign_email])
      · exact Or.inr ⟨"HTTP " ++ toString code ++ ": " ++ text.take 200,
          by simp [send_campaign_email, hc]⟩

/-- Witness for C9 at two concrete outcomes: a timeout and a rejected 404
response. -/
theorem C9_witness :
    send_campaign_email "err" HttpOutcome.timeout =
      (false, some "Timeout lors de l'envoi") ∧
    send_campaign_email "err" (.response 404 "not found" none) =
      (false, some ("HTTP " ++ toString 404 ++ ": " ++ ("not found" : String).take 200)) :=
  ⟨(C9_delivery_contract "err" HttpOutcome.timeout).2.2.2.1 rfl,
   (C9_delivery_contract "err" (.response 404 "not found" none)).2.1
     404 "not found" none rfl (by decide)⟩

/-- C2 counterexample: for a campaign scheduled only through `scheduledAt`
(empty `scheduledDates` list), a sweep writes the sent instant into
`sentDates` but never writes `scheduledDates`, so the persisted `sentDates`
field is not a subset of the persisted `scheduledDates` field. -/
theorem C2_counterexample :
    ¬ (∀ d ∈ (process_campaign wParse 0 "T1" [u1] deliverOk false
          cAtOnly).newCampaign.sentDates,
        d ∈ (process_campaign wParse 0 "T1" [u1] deliverOk false
          cAtOnly).newCampaign.scheduledDates) := by
  decide

/-- C2 amended: after any sweep, `sentDates` is a subset of the campaign's
normalized scheduled set (the `scheduledDates` list, or `[scheduledAt]`
when that list is empty and `scheduledAt` is set), provided the subset
held before the sweep; the persisted `scheduledDates` field itself is
never updated. -/
theorem C2_sentDates_subset (parse : String → Option Int) (now : Int) (nowIso : String)
    (users : List Contact) (deliver : Contact → Bool × Option String) (dryRun : Bool)
    (c : Campaign) (hpre : ∀ d ∈ c.sentDates, d ∈ normScheduled c) :
    ∀ d ∈ (process_campaign parse now nowIso users deliver dryRun c).newCampaign.sentDates,
      d ∈ normScheduled
        (process_campaign parse now nowIso users deliver dryRun c).newCampaign := by
  have hfields := process_preserves_fields parse now nowIso users deliver dryRun c
  rw [normScheduled_congr hfields.2.1 hfields.2.2]
  have hdue_sub : ∀ d ∈ dueOf parse now c, d ∈ normScheduled c :=
    fun d hd => (mem_dueOf.mp hd).1
  by_cases hdue : dueOf parse now c = []
  · rw [process_skip hdue]
    exact hpre
  · by_cases hcont : contactsOf users c = []
    · rw [process_branch_noContacts hdue hcont]
      exact hpre
    · by_cases hch : c.channelsEmail = false
      · rw [process_branch_disabled hdue hcont hch]
        dsimp only
        intro d hd
        rcases (mem_addToSetEach d (dueOf parse now c) c.sentDates).mp hd with h | h
        · exact hpre d h
        · exact hdue_sub d h
      · have hch' : c.channelsEmail = true := by
          revert hch
          cases c.channelsEmail <;> simp
        rw [process_branch_main hdue hcont hch']
        dsimp only
        intro d hd
        rw [List.mem_dedup, List.mem_append] at hd
        rcases hd with h | h
        · exact hpre d h
        · exact hdue_sub d h

/-- Witness for the amended C2 at the scheduledAt-only campaign and the
sent date it absorbed. -/
theorem C2_witness :
    "d1" ∈ (process_campaign wParse 0 "T1" [u1] deliverOk false
        cAtOnly).newCampaign.sentDates ∧
    "d1" ∈ normScheduled
        (process_campaign wParse 0 "T1" [u1] deliverOk false cAtOnly).newCampaign :=
  ⟨by decide,
   C2_sentDates_subset wParse 0 "T1" [u1] deliverOk false cAtOnly (by decide)
     "d1" (by decide)⟩

/-- Committing an update keyed on `id` keeps the stored id sequence. -/
lemma applyUpdate_ids (n : Campaign) :
    ∀ st : List Campaign, (applyUpdate st n).map Campaign.id = st.map Campaign.id := by
  intro st
  induction st with
  | nil => rfl
  | cons x xs ih =>
    show (if x.id == n.id then n :: xs
      else x :: applyUpdate xs n).map Campaign.id = _
    by_cases h : (x.id == n.id) = true
    · rw [if_pos h]
      show n.id :: xs.map Campaign.id = x.id :: xs.map Campaign.id
      rw [eq_of_beq h]
    · rw [if_neg h]
      show x.id :: (applyUpdate xs n).map Campaign.id = x.id :: xs.map Campaign.id
      rw [ih]

/-- In a store with pairwise distinct ids, an element of the updated store
is the written document or an untouched document with a different id. -/
lemma mem_applyUpdate_of_nodup {n x : Campaign} :
    ∀ {st : List Campaign}, (st.map Campaign.id).Nodup → x ∈ applyUpdate st n →
      x = n ∨ (x ∈ st ∧ ¬ x.id = n.id) := by
  intro st
  induction st with
  | nil =>
    intro _ hx
    exact absurd hx (List.not_mem_nil x)
  | cons y ys ih =>
    intro hN hx
    rw [List.map_cons, List.nodup_cons] at hN
    have hx' : x ∈ (if y.id == n.id then n :: ys else y :: applyUpdate ys n) := hx
    by_cases h : (y.id == n.id) = true
    · rw [if_pos h] at hx'
      rcases List.mem_cons.mp hx' with h1 | h1
      · exact Or.inl h1
      · refine Or.inr ⟨List.mem_cons_of_mem y h1, ?_⟩
        intro hid
        apply hN.1
        rw [eq_of_beq h, ← hid]
        exact List.mem_map_of_mem Campaign.id h1
    · rw [if_neg h] at hx'
      rcases List.mem_cons.mp hx' with h1 | h1
      · refine Or.inr ⟨by rw [h1]; exact List.mem_cons_self y ys, ?_⟩
        intro hid
        apply h
        apply beq_iff_eq.mpr
        rw [← h1]
        exact hid
      · rcases ih hN.2 h1 with h2 | h2
        · exact Or.inl h2
        · exact Or.inr ⟨List.mem_cons_of_mem y h2.1, h2.2⟩

/-- A stored document whose id differs from the written one survives the
update. -/
lemma mem_applyUpdate_of_ne {n x : Campaign} :
    ∀ {st : List Campaign}, x ∈ st → ¬ x.id = n.id → x ∈ applyUpdate st n := by
  intro st
  induction st with
  | nil =>
    intro hx _
    exact absurd hx (List.not_mem_nil x)
  | cons y ys ih =>
    intro hx hne
    show x ∈ (if y.id == n.id then n :: ys else y :: applyUpdate ys n)
    by_cases h : (y.id == n.id) = true
    · rw [if_pos h]
      rcases List.mem_cons.mp hx with h1 | h1
      · exfalso
        apply hne
        rw [h1]
        exact eq_of_beq h
      · exact List.mem_cons_of_mem n h1
    · rw [if_neg h]
      rcases List.mem_cons.mp hx with h1 | h1
      · rw [h1]
        exact List.mem_cons_self y _
      · exact List.mem_cons_of_mem y (ih h1 hne)

/-- A campaign whose (normalized) scheduled set is covered on the past
dates by its sent dates has nothing due. -/
lemma dueOf_nil_of_covers {parse : String → Option Int} {now : Int} {c c' : Campaign}
    (hn : normScheduled c' = normScheduled c)
    (hcov : ∀ d ∈ normScheduled c, (∃ t, parse d = some t ∧ t ≤ now) → d ∈ c'.sentDates) :
    dueOf parse now c' = [] := by
  unfold dueOf
  rw [hn]
  apply List.filter_eq_nil_iff.mpr
  intro d hd hdu
  obtain ⟨hp, hni⟩ := isDue_true_iff.mp hdu
  exact hni (hcov d hd hp)

/-- After a sweep writes a campaign back in a selectable status, nothing is
due for it at the same instant: the due dates were folded into sentDates. -/
lemma due_nil_after {parse : String → Option Int} {now : Int} {nowIso : String}
    {users : List Contact} {deliver : Contact → Bool × Option String} {dryRun : Bool}
    {c : Campaign}
    (hsel : sweepStatusSelect
      (process_campaign parse now nowIso users deliver dryRun c).newCampaign = true) :
    dueOf parse now (process_campaign parse now nowIso users deliver dryRun c).newCampaign
      = [] := by
  by_cases hdue : dueOf parse now c = []
  · rw [process_skip hdue]
    exact hdue
  · by_cases hcont : contactsOf users c = []
    · rw [process_branch_noContacts hdue hcont] at hsel
      exact absurd
        (show (("completed" : String) == "scheduled"
          || ("completed" : String) == "sending") = true from hsel)
        (by decide)
    · by_cases hch : c.channelsEmail = false
      · rw [process_branch_disabled hdue hcont hch]
        refine dueOf_nil_of_covers (normScheduled_congr rfl rfl) ?_
        intro d hd hp
        show d ∈ addToSetEach c.sentDates (dueOf parse now c)
        apply (mem_addToSetEach d (dueOf parse now c) c.sentDates).mpr
        by_cases hds : d ∈ c.sentDates
        · exact Or.inl hds
        · exact Or.inr (mem_dueOf.mpr ⟨hd, isDue_true_iff.mpr ⟨hp, hds⟩⟩)
      · have hch' : c.channelsEmail = true := by
          revert hch
          cases c.channelsEmail <;> simp
        rw [process_branch_main hdue hcont hch']
        refine dueOf_nil_of_covers (normScheduled_congr rfl rfl) ?_
        intro d hd hp
        show d ∈ (c.sentDates ++ dueOf parse now c).dedup
        rw [List.mem_dedup, List.mem_append]
        by_cases hds : d ∈ c.sentDates
        · exact Or.inl hds
        · exact Or.inr (mem_dueOf.mpr ⟨hd, isDue_true_iff.mpr ⟨hp, hds⟩⟩)

/-- Unfolding the sweep step when the campaign reports processed. -/
lemma sweepStep_processed {parse : String → Option Int} {now : Int} {nowIso : String}
    {users : List Contact} {deliver : Contact → Bool × Option String} {dryRun : Bool}
    {st : List Campaign} {k s f : Nat} {c : Campaign}
    (h : (process_campaign parse now nowIso users deliver dryRun c).processed = true) :
    sweepStep parse now nowIso users deliver dryRun (st, k, s, f) c =
      (applyUpdate st (process_campaign parse now nowIso users deliver dryRun c).newCampaign,
       k + 1,
       s + (process_campaign parse now nowIso users deliver dryRun c).successCount,
       f + (process_campaign parse now nowIso users deliver dryRun c).failCount) := by
  unfold sweepStep
  rw [if_pos h]

/-- Unfolding the sweep step when the campaign is skipped. -/
lemma sweepStep_skipped {parse : String → Option Int} {now : Int} {nowIso : String}
    {users : List Contact} {deliver : Contact → Bool × Option String} {dryRun : Bool}
    {acc : List Campaign × Nat × Nat × Nat} {c : Campaign}
    (h : (process_campaign parse now nowIso users deliver dryRun c).processed = false) :
    sweepStep parse now nowIso users deliver dryRun acc c = acc := by
  unfold sweepStep
  rw [if_neg (by simp [h])]

/-- Invariant of the sweep fold: once the remaining worklist is exhausted,
every selectable campaign left in the store has nothing due. -/
lemma sweep_fold_quiet (parse : String → Option Int) (now : Int) (nowIso : String)
    (users : List Contact) (deliver : Contact → Bool × Option String) (dryRun : Bool) :
    ∀ (L : List Campaign) (st : List Campaign) (k s f : Nat),
      (st.map Campaign.id).Nodup →
      (∀ x ∈ st, sweepStatusSelect x = true → dueOf parse now x = [] ∨ x ∈ L) →
      ∀ x ∈ (L.foldl (sweepStep parse now nowIso users deliver dryRun) (st, k, s, f)).1,
        sweepStatusSelect x = true → dueOf parse now x = [] := by
  intro L
  induction L with
  | nil =>
    intro st k s f _ hInv x hx hsel
    rcases hInv x hx hsel with h | h
    · exact h
    · exact absurd h (List.not_mem_nil x)
  | cons c L ih =>
    intro st k s f hN hInv x hx hsel
    rw [List.foldl_cons] at hx
    by_cases hp : (process_campaign parse now nowIso users deliver dryRun c).processed = true
    · rw [sweepStep_processed hp] at hx
      refine ih (applyUpdate st
        (process_campaign parse now nowIso users deliver dryRun c).newCampaign)
        _ _ _ ?_ ?_ x hx hsel
      · rw [applyUpdate_ids]
        exact hN
      · intro y hy hsely
        rcases mem_applyUpdate_of_nodup hN hy with h1 | h1
        · left
          have hsely' : sweepStatusSelect
              (process_campaign parse now nowIso users deliver dryRun c).newCampaign
              = true := by
            rw [← h1]
            exact hsely
          rw [h1]
          exact due_nil_after hsely'
        · rcases hInv y h1.1 hsely with h2 | h2
          · exact Or.inl h2
          · rcases List.mem_cons.mp h2 with h3 | h3
            · exfalso
              apply h1.2
              rw [h3]
              exact (process_preserves_fields parse now nowIso users deliver dryRun c).1.symm
            · exact Or.inr h3
    · have hp' : (process_campaign parse now nowIso users deliver dryRun c).processed
          = false := by
        revert hp
        cases (process_campaign parse now nowIso users deliver dryRun c).processed <;> simp
      rw [sweepStep_skipped hp'] at hx
      refine ih st k s f hN ?_ x hx hsel
      intro y hy hsely
      rcases hInv y hy hsely with h2 | h2
      · exact Or.inl h2
      · rcases List.mem_cons.mp h2 with h3 | h3
        · left
          rw [h3]
          exact processed_false_due_nil hp'
        · exact Or.inr h3

/-- A worklist of campaigns with nothing due leaves the sweep accumulator
untouched. -/
lemma foldl_const_of_skip (parse : String → Option Int) (now : Int) (nowIso : String)
    (users : List Contact) (deliver : Contact → Bool × Option String) (dryRun : Bool) :
    ∀ (M : List Campaign) (acc : List Campaign × Nat × Nat × Nat),
      (∀ c ∈ M, dueOf parse now c = []) →
      M.foldl (sweepStep parse now nowIso users deliver dryRun) acc = acc := by
  intro M
  induction M with
  | nil =>
    intro acc _
    rfl
  | cons c L ih =>
    intro acc hM
    rw [List.foldl_cons]
    have hskip : (process_campaign parse now nowIso users deliver dryRun c).processed
        = false := by
      rw [process_skip (hM c (List.mem_cons_self c L))]
    rw [sweepStep_skipped hskip]
    exact ih acc (fun c' hc' => hM c' (List.mem_cons_of_mem c hc'))

/-- A sweep over a store whose selectable campaigns all have nothing due
returns the store unchanged with zero counts. -/
lemma run_scheduler_quiet (parse : String → Option Int) (now : Int) (nowIso : String)
    (users : List Contact) (deliver : Contact → Bool × Option String) (dryRun : Bool)
    (store : List Campaign)
    (hq : ∀ x ∈ store, sweepStatusSelect x = true → dueOf parse now x = []) :
    run_scheduler parse now nowIso users deliver dryRun store = (store, 0, 0, 0) := by
  unfold run_scheduler
  apply foldl_const_of_skip
  intro c hc
  have h := List.mem_filter.mp hc
  exact hq c h.1 h.2

/-- C4: a campaign with nothing due is skipped untouched with zero counts
and no delivery attempts; consequently, on a store with distinct campaign
ids, a second sweep run immediately after a first one (same instant, so no
new due dates) changes nothing, processes zero campaigns and reports zero
successes and failures. -/
theorem C4_nothing_due_idempotence (parse : String → Option Int) (now : Int)
    (nowIso : String) (users : List Contact) (deliver : Contact → Bool × Option String)
    (dryRun : Bool) :
    (∀ c : Campaign, dueOf parse now c = [] →
      process_campaign parse now nowIso users deliver dryRun c = ⟨false, 0, 0, [], c⟩) ∧
    (∀ store : List Campaign, (store.map Campaign.id).Nodup →
      run_scheduler parse now nowIso users deliver dryRun
          (run_scheduler parse now nowIso users deliver dryRun store).1 =
        ((run_scheduler parse now nowIso users deliver dryRun store).1, 0, 0, 0)) := by
  constructor
  · intro c h
    exact process_skip h
  · intro store hN
    apply run_scheduler_quiet
    intro x hx hsel
    unfold run_scheduler at hx
    exact sweep_fold_quiet parse now nowIso users deliver dryRun
      (store.filter (fun c => sweepStatusSelect c)) store 0 0 0 hN
      (fun y hy hsely => Or.inr (List.mem_filter.mpr ⟨hy, hsely⟩)) x hx hsel

/-- Witness for C4: a future-only campaign is skipped, and the one-campaign
store is quiescent on the second sweep. -/
theorem C4_witness :
    process_campaign wParse 0 "T1" [u1] deliverOk false cFuture
      = ⟨false, 0, 0, [], cFuture⟩ ∧
    run_scheduler wParse 0 "T1" [u1] deliverOk false
        (run_scheduler wParse 0 "T1" [u1] deliverOk false [baseCampaign]).1 =
      ((run_scheduler wParse 0 "T1" [u1] deliverOk false [baseCampaign]).1, 0, 0, 0) :=
  ⟨(C4_nothing_due_idempotence wParse 0 "T1" [u1] deliverOk false).1 cFuture (by decide),
   (C4_nothing_due_idempotence wParse 0 "T1" [u1] deliverOk false).2 [baseCampaign]
     (by decide)⟩

/-- A stored campaign whose id matches no processed campaign's write
survives the whole sweep fold. -/
lemma fold_preserves_unmatched (parse : String → Option Int) (now : Int) (nowIso : String)
    (users : List Contact) (deliver : Contact → Bool × Option String) (dryRun : Bool) :
    ∀ (L : List Campaign) (st : List Campaign) (k s f : Nat) (x : Campaign),
      x ∈ st →
      (∀ c ∈ L,
        ¬ (process_campaign parse now nowIso users deliver dryRun c).newCampaign.id = x.id) →
      x ∈ (L.foldl (sweepStep parse now nowIso users deliver dryRun) (st, k, s, f)).1 := by
  intro L
  induction L with
  | nil =>
    intro st k s f x hx _
    exact hx
  | cons c L ih =>
    intro st k s f x hx hne
    rw [List.foldl_cons]
    by_cases hp : (process_campaign parse now nowIso users deliver dryRun c).processed = true
    · rw [sweepStep_processed hp]
      apply ih
      · apply mem_applyUpdate_of_ne hx
        intro hid
        exact hne c (List.mem_cons_self c L) hid.symm
      · intro c' hc'
        exact hne c' (List.mem_cons_of_mem c hc')
    · have hp' : (process_campaign parse now nowIso users deliver dryRun c).processed
          = false := by
        revert hp
        cases (process_campaign parse now nowIso users deliver dryRun c).processed <;> simp
      rw [sweepStep_skipped hp']
      exact ih st k s f x hx (fun c' hc' => hne c' (List.mem_cons_of_mem c hc'))

/-- C8 counterexample: at an instant where the failed campaign still has an
unresolved (now past) scheduled date, a later sweep does not select it and
returns the store unchanged with zero campaigns processed, so its status
never returns to `scheduled`. -/
theorem C8_counterexample :
    run_scheduler wParse 200 "T2" [u1] deliverOk false [cFailed]
      = ([cFailed], 0, 0, 0) ∧
    cFailed.status = "failed" ∧ ¬ dueOf wParse 200 cFailed = [] := by
  decide

/-- C8 amended: `failed` is terminal for the dispatcher. A stored campaign
in status `failed` (whose id no other stored document shares) is never
selected by a sweep and survives any sweep unchanged; only external
intervention can change its status. -/
theorem C8_failed_terminal (parse : String → Option Int) (now : Int) (nowIso : String)
    (users : List Contact) (deliver : Contact → Bool × Option String) (dryRun : Bool)
    (store : List Campaign) (c : Campaign)
    (hmem : c ∈ store) (hf : c.status = "failed")
    (huniq : ∀ d ∈ store, d.id = c.id → d = c) :
    ¬ c ∈ store.filter (fun x => sweepStatusSelect x) ∧
    c ∈ (run_scheduler parse now nowIso users deliver dryRun store).1 := by
  have hselc : sweepStatusSelect c = false := by
    unfold sweepStatusSelect
    rw [hf]
    decide
  constructor
  · intro hmemf
    have h2 := (List.mem_filter.mp hmemf).2
    rw [hselc] at h2
    exact absurd h2 (by decide)
  · unfold run_scheduler
    apply fold_preserves_unmatched parse now nowIso users deliver dryRun _ store 0 0 0 c hmem
    intro c' hc' hid
    have hc'mem := List.mem_filter.mp hc'
    have hidc : c'.id = c.id := by
      rw [← (process_preserves_fields parse now nowIso users deliver dryRun c').1]
      exact hid
    have hcc : c' = c := huniq c' hc'mem.1 hidc
    have h3 : sweepStatusSelect c = true := by
      rw [← hcc]
      exact hc'mem.2
    rw [hselc] at h3
    exact absurd h3 (by decide)

/-- Witness for the amended C8: the failed campaign is skipped while the
scheduled campaign in the same store is still swept. -/
theorem C8_witness :
    ¬ cFailed ∈ ([cFailed, baseCampaign].filter (fun x => sweepStatusSelect x)) ∧
    cFailed ∈ (run_scheduler wParse 200 "T2" [u1] deliverOk false
      [cFailed, baseCampaign]).1 :=
  C8_failed_terminal wParse 200 "T2" [u1] deliverOk false [cFailed, baseCampaign] cFailed
    (by decide) (by decide) (by decide)

end Afroboost
